import Mathlib

/-!
Verification of the Smart Recipe Generator client (src/src/App.tsx).

The program is a single-page React client.  We shallowly embed the parts
of it that the specification's claims are about:

* the Filter Engine (the `useEffect` at App.tsx:421-428);
* the Ingredient Store operations (`handleAddIngredient`,
  `addPopularIngredient`, and the recognition merge in
  `handleRecognizeIngredients`);
* the Recipe Client's non-ok error branch and response-cleaning /
  id-assignment pipeline (`fetchRecipes`, App.tsx:384-419);
* the servings counter (App.tsx:282-284);
* the top-level view router of `App` (App.tsx:481-512), modelled as a
  state machine over events, with React's conditional-mount semantics
  (a component rendered under `cond && <C/>` loses its `useState` state
  when `cond` turns false and is reinitialised when it turns true again).

JavaScript strings are embedded as Lean `String`/`List Char`;
machine numbers that are only ever integers in this program
(cookingTime, servings, ids, HTTP status) as `Int`/`Nat`.
-/

/-- The `difficulty` union type `"Easy" | "Medium" | "Hard"` of the
`Recipe` interface (App.tsx:10). -/
inductive Difficulty where
  | Easy
  | Medium
  | Hard
deriving DecidableEq, Repr

/-- The `Recipe` interface (App.tsx:4-17).  `rating: number` is only
stored, never computed with, so it is embedded as `Int`; optional fields
become `Option`. -/
structure Recipe where
  id : Int
  title : String
  imageUrl : String
  ingredients : List String
  cookingTime : Int
  difficulty : Difficulty
  dietary : List String
  rating : Int
  description : Option String := none
  instructions : Option (List String) := none
  nutritionalInfo : Option String := none
  servings : Option String := none
deriving DecidableEq, Repr

/-- `Omit<Recipe, 'id'>`: the shape of recipe objects in the generation
response before the client assigns ids (App.tsx:408). -/
structure RecipeNoId where
  title : String
  imageUrl : String
  ingredients : List String
  cookingTime : Int
  difficulty : Difficulty
  dietary : List String
  rating : Int
  description : Option String := none
  instructions : Option (List String) := none
  nutritionalInfo : Option String := none
  servings : Option String := none
deriving DecidableEq, Repr

/-- `{...recipe, id: index}` (App.tsx:408): spread plus id. -/
def RecipeNoId.withId (r : RecipeNoId) (i : Int) : Recipe :=
  { id := i, title := r.title, imageUrl := r.imageUrl,
    ingredients := r.ingredients, cookingTime := r.cookingTime,
    difficulty := r.difficulty, dietary := r.dietary, rating := r.rating,
    description := r.description, instructions := r.instructions,
    nutritionalInfo := r.nutritionalInfo, servings := r.servings }

/-- Forget the id again (used to state that id assignment changes nothing
else). -/
def Recipe.stripId (r : Recipe) : RecipeNoId :=
  { title := r.title, imageUrl := r.imageUrl,
    ingredients := r.ingredients, cookingTime := r.cookingTime,
    difficulty := r.difficulty, dietary := r.dietary, rating := r.rating,
    description := r.description, instructions := r.instructions,
    nutritionalInfo := r.nutritionalInfo, servings := r.servings }

/-! ## Filter Engine (App.tsx:421-428)

```js
let tempRecipes = [...recipes];
if (difficultyFilter.length > 0) {
    tempRecipes = tempRecipes.filter(recipe => difficultyFilter.includes(recipe.difficulty));
}
tempRecipes = tempRecipes.filter(recipe => recipe.cookingTime <= maxTimeFilter);
setFilteredRecipes(tempRecipes);
```
-/

/-- The filter effect, as written in the source: an optional difficulty
pass followed by an unconditional cooking-time pass. -/
def filterEngine (recipes : List Recipe) (difficultyFilter : List Difficulty)
    (maxTimeFilter : Int) : List Recipe :=
  let tempRecipes := recipes
  let tempRecipes :=
    if difficultyFilter.length > 0 then
      tempRecipes.filter (fun recipe => difficultyFilter.contains recipe.difficulty)
    else tempRecipes
  tempRecipes.filter (fun recipe => recipe.cookingTime ≤ maxTimeFilter)

/-- The predicate the spec writes the Filter Engine with:
`(D is empty or r.difficulty in D) and r.cookingTime <= T`. -/
def specFilterPred (difficultyFilter : List Difficulty) (maxTimeFilter : Int)
    (r : Recipe) : Bool :=
  (difficultyFilter.isEmpty || difficultyFilter.contains r.difficulty)
    && r.cookingTime ≤ maxTimeFilter

/-! ## JavaScript strings

The Ingredient Store and the response-cleaning pipeline compute on
strings with `trim`, `toLowerCase` and regex replacement, so we embed a
JavaScript string as its character sequence `List Char`, on which those
operations are definable and evaluable by the kernel. -/

/-- A JavaScript string, as its sequence of characters. -/
abbrev JSString := List Char

/-- The whitespace class used by `String.prototype.trim` and the regex
class `\s` on the characters this program meets (space, tab, and line
terminators). -/
def wsChar (c : Char) : Bool :=
  c = ' ' || c = '\t' || c = '\n' || c = '\r' ||
    c = Char.ofNat 11 || c = Char.ofNat 12

/-- `String.prototype.toLowerCase` on the ASCII range (the program only
ever lowercases ingredient names); `Char.toLower` is exactly the ASCII
lowering `A-Z ↦ a-z`. -/
def jsToLower (s : JSString) : JSString := s.map Char.toLower

/-- `String.prototype.trim`: strip leading and trailing whitespace. -/
def jsTrim (s : JSString) : JSString :=
  ((s.dropWhile wsChar).reverse.dropWhile wsChar).reverse

/-! ## Ingredient Store (App.tsx:109-127, 164-166)

```js
const handleAddIngredient = (e) => {
  const formattedIngredient = inputValue.trim().toLowerCase();
  if (formattedIngredient && !ingredients.includes(formattedIngredient)) {
    setIngredients([...ingredients, formattedIngredient]); ... } };
const addPopularIngredient = (ingredient) => {
  const lowerCaseIngredient = ingredient.toLowerCase();
  if (!ingredients.includes(lowerCaseIngredient)) {
    setIngredients([...ingredients, lowerCaseIngredient]); } };
// recognition merge:
const newIngredients = Array.from(new Set([...ingredients, ...recognized]));
```
-/

/-- `handleAddIngredient` (App.tsx:109-116), restricted to its effect on
the `ingredients` state: trim+lowercase, then append unless empty
(falsy) or already present. -/
def handleAddIngredient (ingredients : List JSString) (inputValue : JSString) :
    List JSString :=
  let formattedIngredient := jsToLower (jsTrim inputValue)
  if formattedIngredient ≠ [] ∧ formattedIngredient ∉ ingredients then
    ingredients ++ [formattedIngredient]
  else ingredients

/-- `addPopularIngredient` (App.tsx:118-123): lowercase (no trim), then
append unless already present. -/
def addPopularIngredient (ingredients : List JSString) (ingredient : JSString) :
    List JSString :=
  let lowerCaseIngredient := jsToLower ingredient
  if lowerCaseIngredient ∉ ingredients then
    ingredients ++ [lowerCaseIngredient]
  else ingredients

/-- `Array.from(new Set(l))`: a JavaScript `Set` keeps the first
occurrence of each element, in insertion order, compared by (exact)
SameValueZero equality. -/
def jsSetDedup (l : List JSString) : List JSString :=
  l.foldl (fun acc x => if x ∈ acc then acc else acc ++ [x]) []

/-- The recognition merge (App.tsx:165):
`Array.from(new Set([...ingredients, ...recognized]))`.  Note the
recognized items are merged raw: no trim, no lowercasing. -/
def handleRecognizeMerge (ingredients recognized : List JSString) :
    List JSString :=
  jsSetDedup (ingredients ++ recognized)

/-- `handleRemoveIngredient` (App.tsx:125-127). -/
def handleRemoveIngredient (ingredients : List JSString)
    (ingredientToRemove : JSString) : List JSString :=
  ingredients.filter (fun ing => ing ≠ ingredientToRemove)

/-- No two entries of the store are equal under case-insensitive
comparison. -/
def caseInsensitiveDistinct (l : List JSString) : Prop :=
  l.Pairwise (fun a b => jsToLower a ≠ jsToLower b)

instance (l : List JSString) : Decidable (caseInsensitiveDistinct l) := by
  unfold caseInsensitiveDistinct
  infer_instance

/-- One Ingredient Store mutation, in the vocabulary of the spec's §4.1:
`manual` is `add` via the input form, `quick` is `add` via a popular
quick-pick button, `recognizeMerge` is `addMany` after recognition. -/
inductive AddOp where
  | manual (inputValue : JSString)
  | quick (ingredient : JSString)
  | recognizeMerge (recognized : List JSString)
deriving DecidableEq, Repr

/-- Apply one mutation to the store. -/
def applyOp (ingredients : List JSString) : AddOp → List JSString
  | .manual s => handleAddIngredient ingredients s
  | .quick s => addPopularIngredient ingredients s
  | .recognizeMerge l => handleRecognizeMerge ingredients l

/-- Run a sequence of mutations from the empty store. -/
def applyOps (ops : List AddOp) : List JSString :=
  ops.foldl applyOp []

/-- Whether an operation is the recognition merge (the only operation
that inserts unnormalized items). -/
def AddOp.isRecognizeMerge : AddOp → Bool
  | .recognizeMerge _ => true
  | _ => false

/-- Store invariant maintained by the two normalizing operations: no
exact duplicates, and every entry is lowercase-fixed. -/
def storeInv (l : List JSString) : Prop :=
  l.Nodup ∧ ∀ e ∈ l, jsToLower e = e

/-! ## Recipe Client: response cleaning and id assignment (App.tsx:404-409)

```js
const responseText = await response.text();
const cleanedText = responseText.replace(/^```json\s*/, '').replace(/```$/, '');
const parsedRecipes = JSON.parse(cleanedText);
const recipesWithIds = parsedRecipes.map((recipe, index) => ({...recipe, id: index}));
```
-/

/-- The literal of the regex `/^```json\s*/` before the `\s*`. -/
def fenceOpen : JSString := "```json".data

/-- The literal of the regex `/```$/`. -/
def fenceClose : JSString := "```".data

/-- `.replace(/^```json\s*/, '')`: if the text starts with the
seven-character marker, remove it together with the following run of
whitespace; otherwise no match, text unchanged. -/
def stripFenceOpen (s : JSString) : JSString :=
  if fenceOpen.isPrefixOf s then (s.drop fenceOpen.length).dropWhile wsChar
  else s

/-- `.replace(/```$/, '')`: if the text ends with the three-character
marker, remove it; otherwise no match, text unchanged. -/
def stripFenceClose (s : JSString) : JSString :=
  if fenceClose.isSuffixOf s then s.take (s.length - fenceClose.length)
  else s

/-- `cleanedText` (App.tsx:405): both replacements in order. -/
def cleanedText (s : JSString) : JSString :=
  stripFenceClose (stripFenceOpen s)

/-- `recipesWithIds` (App.tsx:408): assign each parsed recipe the id
equal to its 0-based position. -/
def recipesWithIds (parsedRecipes : List RecipeNoId) : List Recipe :=
  parsedRecipes.enum.map (fun p => p.2.withId (Int.ofNat p.1))

/-! ## Recipe Client: the non-ok branch (App.tsx:395-402)

```js
if (!response.ok) {
    try {
        const errorData = await response.json();
        throw new Error(errorData.error || 'Failed to fetch recipes from the server.');
    } catch (e) {
         throw new Error(`Server returned status ${response.status}: ${await response.text()}`);
    }
}
```
and the outer catch (App.tsx:410-411):
```js
} catch (err) {
    setError(err instanceof Error ? err.message : 'An unknown error occurred.');
```

The body-reading methods are modelled from the WHATWG fetch standard:
`response.json()` and `response.text()` each consume (disturb) the body
stream — `json()` fully reads the text and only then parses it, so the
body is consumed even when the parse fails — and a body-reading method
called on an already-consumed response rejects with a `TypeError`.
`JSON.parse` itself is the platform's parser; the model takes it as the
parameter `parseErrorField`, which reports `none` when the body is not
valid JSON, `some none` when it is JSON without a string `error` field,
and `some (some m)` when it is JSON carrying `error: m`. -/

/-- A JavaScript error value thrown in the fetch error path.  `TypeError`
and `SyntaxError` both extend `Error`, so `err instanceof Error` holds
for all three and `err.message` is the carried string. -/
inductive JsError where
  | error (message : String)
  | typeError (message : String)
  | syntaxError (message : String)
deriving DecidableEq, Repr

/-- `err.message`. -/
def JsError.message : JsError → String
  | .error m => m
  | .typeError m => m
  | .syntaxError m => m

/-- The generation response: HTTP status and raw body text. -/
structure Response where
  status : Nat
  bodyText : String
deriving DecidableEq, Repr

/-- The `TypeError` message for reading an already-consumed body
(wording is platform-dependent; only its identity matters here). -/
def bodyAlreadyReadMsg : String := "body stream already read"

/-- `await response.text()` with explicit body-consumed state: errors
with a `TypeError` if the body was already read, else returns the body
text and marks it consumed. -/
def responseTextCall (r : Response) (bodyUsed : Bool) :
    Except JsError String × Bool :=
  if bodyUsed then (Except.error (JsError.typeError bodyAlreadyReadMsg), bodyUsed)
  else (Except.ok r.bodyText, true)

/-- `await response.json()`: read the text (consuming the body), then
`JSON.parse` it; a parse failure is a `SyntaxError`, but the body stays
consumed. -/
def responseJsonCall (parseErrorField : String → Option (Option String))
    (r : Response) (bodyUsed : Bool) :
    Except JsError (Option String) × Bool :=
  match responseTextCall r bodyUsed with
  | (Except.error e, used) => (Except.error e, used)
  | (Except.ok t, used) =>
    match parseErrorField t with
    | none => (Except.error (JsError.syntaxError "Unexpected token in JSON"), used)
    | some v => (Except.ok v, used)

/-- `errorData.error || 'Failed to fetch recipes from the server.'`:
JavaScript `||` picks the fallback when the field is absent (undefined)
or the empty string, both falsy. -/
def jsOrDefault (v : Option String) (dflt : String) : String :=
  match v with
  | some s => if s = "" then dflt else s
  | none => dflt

/-- The whole `if (!response.ok)` block: the error value that escapes
it.  The `try` block always throws (either `response.json()` threw, or
the code itself throws the `new Error`), so the `catch` always runs,
with the body already consumed by `response.json()`. -/
def fetchNonOkThrow (parseErrorField : String → Option (Option String))
    (r : Response) : JsError :=
  let tryOutcome : JsError × Bool :=
    match responseJsonCall parseErrorField r false with
    | (Except.error e, used) => (e, used)
    | (Except.ok errorData, used) =>
      (JsError.error
        (jsOrDefault errorData "Failed to fetch recipes from the server."), used)
  match responseTextCall r tryOutcome.2 with
  | (Except.error e, _) => e
  | (Except.ok t, _) =>
    JsError.error ("Server returned status " ++ toString r.status ++ ": " ++ t)

/-- The message the outer catch stores in the `error` state and the
error panel displays (App.tsx:410-411, 468): `err instanceof Error ?
err.message : 'An unknown error occurred.'`. -/
def displayedFetchError (parseErrorField : String → Option (Option String))
    (r : Response) : String :=
  (fetchNonOkThrow parseErrorField r).message

/-! ## Servings counter (App.tsx:282-284)

```js
<button onClick={() => setServings(s => Math.max(1, s - 1))} ... disabled={servings <= 1}>-</button>
<button onClick={() => setServings(s => s + 1)} ...>+</button>
```
-/

/-- The decrement updater `s => Math.max(1, s - 1)`. -/
def servingsDecrement (s : Int) : Int := max 1 (s - 1)

/-- A click on the decrement button: the button is `disabled` while
`servings <= 1`, so the updater only runs above the floor. -/
def clickServingsDecrement (s : Int) : Int :=
  if s ≤ 1 then s else servingsDecrement s

/-- A click on the increment button. -/
def clickServingsIncrement (s : Int) : Int := s + 1

/-! ## View Router: the `App` component as a state machine (App.tsx:481-512)

```js
const [page, setPage] = React.useState('home');
const [searchParams, setSearchParams] = React.useState({ ingredients: [], dietary: [], servings: 2, cuisine: 'Any' });
const [selectedRecipe, setSelectedRecipe] = React.useState(null);
...
{page === 'home' && <HomePage onFindRecipes={handleFindRecipes} />}
{page === 'recipes' && <RecipesPage ... onBack={handleBackToHome} onRecipeSelect={setSelectedRecipe} />}
{selectedRecipe && <RecipeModal recipe={selectedRecipe} onClose={() => setSelectedRecipe(null)} />}
```

React semantics used by the model: a component rendered under
`cond && <C/>` is unmounted when `cond` becomes false, destroying its
`useState` state, and mounted afresh — with the `useState` initial
values — when `cond` becomes true again.  `HomePage`'s local state is
therefore carried as `Option HomeState`: `some` exactly while
`page = 'home'`.  Events originating inside a page's UI can only fire
while that page is mounted. -/

/-- `DietaryPreferences` (App.tsx:19-23). -/
structure DietaryPreferences where
  vegetarian : Bool
  vegan : Bool
  glutenfree : Bool
deriving DecidableEq, Repr

/-- `HomePage`'s local `useState` state relevant to the router claims
(App.tsx:94-102). -/
structure HomeState where
  ingredients : List JSString
  inputValue : JSString
  dietary : DietaryPreferences
  servings : Int
  cuisine : JSString
deriving DecidableEq, Repr

/-- The `useState` initial values of `HomePage` (App.tsx:94-102). -/
def initialHomeState : HomeState :=
  { ingredients := [], inputValue := [],
    dietary := { vegetarian := false, vegan := false, glutenfree := false },
    servings := 2, cuisine := "Any".data }

/-- The query object held by `App` (App.tsx:483). -/
structure SearchParams where
  ingredients : List JSString
  dietary : List JSString
  servings : Int
  cuisine : JSString
deriving DecidableEq, Repr

/-- `App`'s `useState` initial `searchParams` (App.tsx:483). -/
def initialSearchParams : SearchParams :=
  { ingredients := [], dietary := [], servings := 2, cuisine := "Any".data }

/-- The `page` state: `'home' | 'recipes'` (App.tsx:482). -/
inductive Page where
  | home
  | recipes
deriving DecidableEq, Repr

/-- The full router state: `App`'s three `useState`s plus the mounted
`HomePage`'s local state. -/
structure AppState where
  page : Page
  searchParams : SearchParams
  selectedRecipe : Option Recipe
  homeState : Option HomeState
deriving DecidableEq, Repr

/-- The initial application state: `page = 'home'` with `HomePage`
freshly mounted. -/
def initialAppState : AppState :=
  { page := Page.home, searchParams := initialSearchParams,
    selectedRecipe := none, homeState := some initialHomeState }

/-- `handleSearch`'s dietary projection (App.tsx:177-181):
`Object.keys(dietary).filter(key => dietary[key])`, in declaration
order vegetarian, vegan, glutenfree. -/
def selectedDietary (d : DietaryPreferences) : List JSString :=
  (if d.vegetarian then ["vegetarian".data] else []) ++
  (if d.vegan then ["vegan".data] else []) ++
  (if d.glutenfree then ["glutenfree".data] else [])

/-- User events the router claims are about.  Events carried by a
page's UI can only take effect while that page is mounted. -/
inductive Event where
  | setInput (s : JSString)
  | submitAddIngredient
  | clickPopular (ingredient : JSString)
  | removeIngredient (ingredient : JSString)
  | recognitionMerge (recognized : List JSString)
  | servingsDecClick
  | servingsIncClick
  | findRecipesClick
  | backClick
  | selectRecipe (r : Recipe)
  | closeModal

/-- The handlers local to `HomePage` (App.tsx:109-181), acting on its
local state. -/
def stepHome (h : HomeState) : Event → HomeState
  | .setInput s => { h with inputValue := s }
  | .submitAddIngredient =>
    let formattedIngredient := jsToLower (jsTrim h.inputValue)
    if formattedIngredient ≠ [] ∧ formattedIngredient ∉ h.ingredients then
      { h with ingredients := h.ingredients ++ [formattedIngredient],
               inputValue := [] }
    else h
  | .clickPopular s => { h with ingredients := addPopularIngredient h.ingredients s }
  | .removeIngredient s =>
    { h with ingredients := handleRemoveIngredient h.ingredients s }
  | .recognitionMerge l =>
    { h with ingredients := handleRecognizeMerge h.ingredients l }
  | .servingsDecClick => { h with servings := clickServingsDecrement h.servings }
  | .servingsIncClick => { h with servings := clickServingsIncrement h.servings }
  | _ => h

/-- One transition of the application.  `findRecipesClick` is
`handleSearch`/`handleFindRecipes` (App.tsx:177-181, 486-489; the button
is `disabled` while the ingredient list is empty, App.tsx:289);
`backClick` is `handleBackToHome` (App.tsx:491-493), which only sets
`page` — unmounting `RecipesPage` and mounting a fresh `HomePage`;
`selectRecipe` is `RecipesPage`'s `onRecipeSelect` (App.tsx:506);
`closeModal` is the modal's `onClose` (App.tsx:509). -/
def step (st : AppState) : Event → AppState
  | .findRecipesClick =>
    match st.homeState with
    | some h =>
      if st.page = Page.home ∧ h.ingredients ≠ [] then
        { page := Page.recipes,
          searchParams :=
            { ingredients := h.ingredients,
              dietary := selectedDietary h.dietary,
              servings := h.servings, cuisine := h.cuisine },
          selectedRecipe := st.selectedRecipe,
          homeState := none }
      else st
    | none => st
  | .backClick =>
    if st.page = Page.recipes then
      { page := Page.home, searchParams := st.searchParams,
        selectedRecipe := st.selectedRecipe,
        homeState := some initialHomeState }
    else st
  | .selectRecipe r =>
    if st.page = Page.recipes then { st with selectedRecipe := some r } else st
  | .closeModal => { st with selectedRecipe := none }
  | e =>
    match st.homeState with
    | some h =>
      if st.page = Page.home then { st with homeState := some (stepHome h e) }
      else st
    | none => st

/-- Run a sequence of events from the initial state. -/
def runEvents (events : List Event) : AppState :=
  events.foldl step initialAppState

/-- The detail-overlay render condition (App.tsx:509):
`{selectedRecipe && <RecipeModal .../>}` — it does not consult `page`. -/
def modalShown (st : AppState) : Bool :=
  st.selectedRecipe.isSome

/-- The ingredient list the home screen displays: the mounted
`HomePage`'s `ingredients` state (App.tsx:237-244); empty when it is not
mounted. -/
def homeIngredients (st : AppState) : List JSString :=
  match st.homeState with
  | some h => h.ingredients
  | none => []

/-- A concrete recipe record, used to exercise the router at concrete
inputs. -/
def sampleRecipe : Recipe :=
  { id := 0, title := "Tomato Pasta", imageUrl := "",
    ingredients := ["pasta", "tomatoes"], cookingTime := 30,
    difficulty := Difficulty.Easy, dietary := [], rating := 4 }

/-! ## Helper lemmas -/

theorem char_toNat_ofNat_valid {n : Nat} (h : Nat.isValidChar n) :
    (Char.ofNat n).toNat = n := by
  rw [Char.ofNat, dif_pos h]
  rfl

theorem char_toLower_toLower (c : Char) : c.toLower.toLower = c.toLower := by
  by_cases h : c.toNat ≥ 65 ∧ c.toNat ≤ 90
  · have hv : Nat.isValidChar (c.toNat + 32) := Or.inl (by omega)
    have hx : c.toLower = Char.ofNat (c.toNat + 32) := by
      rw [Char.toLower, if_pos h]
    have ht := char_toNat_ofNat_valid hv
    rw [hx, Char.toLower, ht, if_neg (by omega)]
  · have hx : c.toLower = c := by
      rw [Char.toLower, if_neg h]
    rw [hx, hx]

theorem jsToLower_jsToLower (s : JSString) :
    jsToLower (jsToLower s) = jsToLower s := by
  unfold jsToLower
  rw [List.map_map]
  apply List.map_congr_left
  intro c _
  exact char_toLower_toLower c

/-! ## C1, C10: the Filter Engine -/

/-- C1: for every fetched recipe list `R`, difficulty set `D` and
max-time `T`, the Filter Engine's output is exactly the recipes of `R`
satisfying `(D is empty or r.difficulty in D) and r.cookingTime <= T` —
stated as equality of the output with the one-pass filter by that
predicate. -/
theorem filterEngine_exactly_spec_set (R : List Recipe) (D : List Difficulty)
    (T : Int) : filterEngine R D T = R.filter (specFilterPred D T) := by
  unfold filterEngine specFilterPred
  cases D with
  | nil => simp
  | cons d ds =>
    simp [List.filter_filter]
    congr 1
    funext r
    simp [Bool.and_comm]

/-- C10: the Filter Engine's output is an order-preserving subsequence
of the fetched list: it is a sublist of its input. -/
theorem filterEngine_preserves_order (R : List Recipe) (D : List Difficulty)
    (T : Int) : (filterEngine R D T).Sublist R := by
  unfold filterEngine
  split
  · exact (List.filter_sublist _).trans (List.filter_sublist _)
  · exact List.filter_sublist _

/-! ## C9: the servings counter -/

/-- C9: from any servings value `s ≥ 1`, a decrement click yields
`max 1 (s - 1)` (the raw updater is literally that), so the counter
never drops below 1. -/
theorem servings_never_below_one (s : Int) (h : 1 ≤ s) :
    clickServingsDecrement s = max 1 (s - 1) ∧
    1 ≤ clickServingsDecrement s ∧
    servingsDecrement s = max 1 (s - 1) := by
  unfold clickServingsDecrement servingsDecrement
  refine ⟨?_, ?_, rfl⟩
  · split_ifs with h1
    · rw [max_eq_left (by omega : s - 1 ≤ 1)]
      omega
    · rfl
  · split_ifs with h1
    · omega
    · exact le_max_left 1 (s - 1)

/-- Witness for C9 at the spec's scenario: servings 2, then 1. -/
theorem servings_never_below_one_witness :
    ((1:Int) ≤ 2 ∧
      (clickServingsDecrement 2 = max 1 (2 - 1) ∧
       1 ≤ clickServingsDecrement 2 ∧
       servingsDecrement 2 = max 1 (2 - 1))) ∧
    ((1:Int) ≤ 1 ∧
      (clickServingsDecrement 1 = max 1 (1 - 1) ∧
       1 ≤ clickServingsDecrement 1 ∧
       servingsDecrement 1 = max 1 (1 - 1))) :=
  ⟨⟨by decide, servings_never_below_one 2 (by decide)⟩,
   ⟨by decide, servings_never_below_one 1 (by decide)⟩⟩

/-! ## C5: id assignment -/

/-- C5: for a parsed generation response of length `N`, the resulting
list carries ids `0..N-1` in response order, and stripping the ids gives
back exactly the parsed response (nothing else is changed, order
preserved). -/
theorem recipesWithIds_positional_ids (l : List RecipeNoId) :
    (recipesWithIds l).map Recipe.id = (List.range l.length).map Int.ofNat ∧
    (recipesWithIds l).map Recipe.stripId = l := by
  unfold recipesWithIds
  constructor
  · rw [List.map_map]
    rw [show (Recipe.id ∘ fun p : Nat × RecipeNoId => p.2.withId (Int.ofNat p.1))
          = Int.ofNat ∘ Prod.fst from rfl]
    rw [← List.map_map, List.enum_map_fst]
  · rw [List.map_map]
    have h2 : (Recipe.stripId ∘ fun p : Nat × RecipeNoId => p.2.withId (Int.ofNat p.1))
        = Prod.snd := by
      funext p
      obtain ⟨i, r⟩ := p
      cases r
      rfl
    rw [h2, List.enum_map_snd]

/-! ## C2: the Ingredient Store -/

theorem storeInv_caseInsensitiveDistinct {l : List JSString} (h : storeInv l) :
    caseInsensitiveDistinct l := by
  obtain ⟨hnd, hlow⟩ := h
  unfold caseInsensitiveDistinct
  refine List.Pairwise.imp_of_mem ?_ hnd
  intro a b ha hb hne
  rw [hlow a ha, hlow b hb]
  exact hne

theorem storeInv_append_lower {l : List JSString} (h : storeInv l)
    {x : JSString} (hx : jsToLower x = x) (hmem : x ∉ l) :
    storeInv (l ++ [x]) := by
  obtain ⟨hnd, hlow⟩ := h
  constructor
  · rw [List.nodup_append]
    refine ⟨hnd, List.nodup_singleton _, ?_⟩
    intro a ha hb
    rw [List.mem_singleton] at hb
    subst hb
    exact hmem ha
  · intro e he
    rcases List.mem_append.mp he with h1 | h1
    · exact hlow e h1
    · rw [List.mem_singleton] at h1
      subst h1
      exact hx

theorem storeInv_handleAddIngredient {l : List JSString} (h : storeInv l)
    (s : JSString) : storeInv (handleAddIngredient l s) := by
  unfold handleAddIngredient
  dsimp only
  split_ifs with hc
  · exact storeInv_append_lower h (jsToLower_jsToLower (jsTrim s)) hc.2
  · exact h

theorem storeInv_addPopularIngredient {l : List JSString} (h : storeInv l)
    (s : JSString) : storeInv (addPopularIngredient l s) := by
  unfold addPopularIngredient
  dsimp only
  split_ifs with hc
  · exact h
  · exact storeInv_append_lower h (jsToLower_jsToLower s) hc

theorem storeInv_foldl_of_no_merge (ops : List AddOp) :
    ∀ l, storeInv l → (∀ op ∈ ops, op.isRecognizeMerge = false) →
      storeInv (ops.foldl applyOp l) := by
  induction ops with
  | nil =>
    intro l h _
    exact h
  | cons op rest ih =>
    intro l h hops
    rw [List.foldl_cons]
    refine ih _ ?_ (fun o ho => hops o (List.mem_cons_of_mem _ ho))
    cases op with
    | manual s => exact storeInv_handleAddIngredient h s
    | quick s => exact storeInv_addPopularIngredient h s
    | recognizeMerge r =>
      have := hops _ (List.mem_cons_self _ _)
      simp [AddOp.isRecognizeMerge] at this

/-- C2 counterexample: the claim fails as stated.  Starting from the
empty store, `add("chicken")` then the recognition merge
`addMany(["Chicken"])` leaves the store holding both `"chicken"` and
`"Chicken"` — the merged item is not normalized and the two entries are
equal under case-insensitive comparison. -/
theorem ingredientStore_merge_dup_counterexample :
    applyOps [AddOp.manual "chicken".data,
              AddOp.recognizeMerge ["Chicken".data]]
      = ["chicken".data, "Chicken".data] ∧
    jsToLower "Chicken".data = "chicken".data ∧
    ¬ caseInsensitiveDistinct ["chicken".data, "Chicken".data] := by
  refine ⟨by decide, by decide, by decide⟩

/-- C2 (amended): every item added manually or via quick-pick is
normalized (manual: trimmed and lowercased; quick-pick: lowercased), and
any sequence of those two operations keeps the store free of exact and
of case-insensitive duplicates.  The recognition merge is excluded: it
inserts recognized items unnormalized, deduplicating only by exact
equality, and can therefore introduce case-insensitive duplicates. -/
theorem ingredientStore_no_case_insensitive_dup (ops : List AddOp)
    (h : ∀ op ∈ ops, op.isRecognizeMerge = false) :
    (applyOps ops).Nodup ∧ caseInsensitiveDistinct (applyOps ops) := by
  have hinv : storeInv (applyOps ops) :=
    storeInv_foldl_of_no_merge ops [] ⟨List.nodup_nil, by intro e he; cases he⟩ h
  exact ⟨hinv.1, storeInv_caseInsensitiveDistinct hinv⟩

/-- Witness for the amended C2 at the spec's §8 scenario
(`add("Chicken")`, `add("chicken")`, `add("Rice")` via manual input, plus
a quick-pick). -/
theorem ingredientStore_no_case_insensitive_dup_witness :
    (∀ op ∈ [AddOp.manual " Chicken ".data, AddOp.manual "chicken".data,
             AddOp.quick "Rice".data],
      op.isRecognizeMerge = false) ∧
    ((applyOps [AddOp.manual " Chicken ".data, AddOp.manual "chicken".data,
                AddOp.quick "Rice".data]).Nodup ∧
      caseInsensitiveDistinct
        (applyOps [AddOp.manual " Chicken ".data, AddOp.manual "chicken".data,
                   AddOp.quick "Rice".data])) :=
  ⟨by decide, ingredientStore_no_case_insensitive_dup _ (by decide)⟩

/-! ## C3, C4: the displayed generation error -/

/-- Shared by C3 and C4: whatever `JSON.parse` would say about the body,
the non-ok branch always surfaces the `TypeError` from re-reading the
already-consumed body.  The `throw` inside the `try` is caught by that
`try`'s own `catch`, and the `catch`'s `response.text()` comes after
`response.json()` has consumed the body, so neither intended message
survives. -/
theorem displayedFetchError_always_body_reread
    (parseErrorField : String → Option (Option String)) (r : Response) :
    displayedFetchError parseErrorField r = bodyAlreadyReadMsg := by
  unfold displayedFetchError fetchNonOkThrow responseJsonCall responseTextCall
  cases h : parseErrorField r.bodyText <;> simp [h, JsError.message]

/-- Witness for the shared C3/C4 lemma at a concrete response. -/
theorem displayedFetchError_always_body_reread_witness :
    displayedFetchError (fun _ => none) { status := 404, bodyText := "x" }
      = bodyAlreadyReadMsg :=
  displayedFetchError_always_body_reread (fun _ => none)
    { status := 404, bodyText := "x" }

/-- C3: the claim's scenario — HTTP 500 whose body parses as
`{error: "model unavailable"}` — does NOT display "model unavailable":
the code displays the body-reread `TypeError` message instead. -/
theorem fetch_error_json_body_not_displayed :
    displayedFetchError
        (fun s => if s = "\x7b\"error\":\"model unavailable\"\x7d"
                  then some (some "model unavailable") else none)
        { status := 500, bodyText := "\x7b\"error\":\"model unavailable\"\x7d" }
      = bodyAlreadyReadMsg ∧
    bodyAlreadyReadMsg ≠ "model unavailable" := by
  exact ⟨displayedFetchError_always_body_reread _ _, by decide⟩

/-- C4: the claim's scenario — HTTP 500 with unparseable body `oops` —
does NOT display a message embedding the status and the raw text: the
displayed body-reread `TypeError` message contains neither `500` nor
`oops`. -/
theorem fetch_error_raw_body_not_displayed :
    displayedFetchError (fun _ => none) { status := 500, bodyText := "oops" }
      = bodyAlreadyReadMsg ∧
    ¬ ("oops".data <:+: bodyAlreadyReadMsg.data) ∧
    ¬ ("500".data <:+: bodyAlreadyReadMsg.data) := by
  exact ⟨displayedFetchError_always_body_reread _ _, by decide, by decide⟩

/-! ## C6: fence stripping is transparent to parsing -/

theorem head_of_prefix {p l : JSString} {c : Char} (h : p <+: l)
    (hp : p.head? = some c) : l.head? = some c := by
  obtain ⟨t, rfl⟩ := h
  cases p with
  | nil => simp at hp
  | cons a as =>
    simp only [List.head?_cons, Option.some.injEq] at hp
    simp [hp]

theorem head_ne_of_dropWhile_head {l : JSString} {a c : Char}
    (h : (l.dropWhile wsChar).head? = some a) (hc : wsChar c = false)
    (hac : a ≠ c) : l.head? ≠ some c := by
  cases l with
  | nil => simp
  | cons x xs =>
    intro hx
    simp only [List.head?_cons, Option.some.injEq] at hx
    subst hx
    rw [List.dropWhile_cons_of_neg (by simp [hc]) ] at h
    simp only [List.head?_cons, Option.some.injEq] at h
    exact hac h.symm

theorem stripFenceOpen_no_match {B : JSString}
    (h1 : (B.dropWhile wsChar).head? = some '[') :
    stripFenceOpen B = B := by
  unfold stripFenceOpen
  rw [if_neg]
  intro hpre
  have hp : B.head? = some '`' :=
    head_of_prefix (List.isPrefixOf_iff_prefix.mp hpre) rfl
  exact head_ne_of_dropWhile_head h1 (by decide) (by decide) hp

theorem stripFenceClose_no_match {B : JSString}
    (h2 : (B.reverse.dropWhile wsChar).head? = some ']') :
    stripFenceClose B = B := by
  unfold stripFenceClose
  rw [if_neg]
  intro hsuf
  have hpre : fenceClose.reverse <+: B.reverse :=
    List.reverse_prefix.mpr (List.isSuffixOf_iff_suffix.mp hsuf)
  have hp : B.reverse.head? = some '`' := head_of_prefix hpre rfl
  exact head_ne_of_dropWhile_head h2 (by decide) (by decide) hp

theorem cleanedText_of_wrapped {B : JSString}
    (h1 : (B.dropWhile wsChar).head? = some '[') :
    cleanedText ("```json\n".data ++ B ++ "\n```".data)
      = B.dropWhile wsChar ++ ['\n'] := by
  obtain ⟨bs, hbs⟩ : ∃ bs, B.dropWhile wsChar = '[' :: bs := by
    cases hd : B.dropWhile wsChar with
    | nil => rw [hd] at h1; simp at h1
    | cons x xs =>
      rw [hd] at h1
      simp only [List.head?_cons, Option.some.injEq] at h1
      exact ⟨xs, by rw [h1]⟩
  have hw : "```json\n".data ++ B ++ "\n```".data
      = fenceOpen ++ ('\n' :: (B ++ "\n```".data)) := by
    rw [show "```json\n".data = fenceOpen ++ ['\n'] from rfl]
    simp
  unfold cleanedText
  rw [hw]
  rw [show stripFenceOpen (fenceOpen ++ ('\n' :: (B ++ "\n```".data)))
        = ((fenceOpen ++ ('\n' :: (B ++ "\n```".data))).drop
            fenceOpen.length).dropWhile wsChar from
      by unfold stripFenceOpen;
         rw [if_pos (List.isPrefixOf_iff_prefix.mpr (List.prefix_append _ _))]]
  rw [List.drop_left]
  rw [List.dropWhile_cons_of_pos (by decide)]
  rw [List.dropWhile_append, hbs]
  simp only [List.isEmpty_cons, Bool.false_eq_true, if_false]
  rw [show ('[' :: bs) ++ "\n```".data = (('[' :: bs) ++ ['\n']) ++ fenceClose from
      by rw [show "\n```".data = ['\n'] ++ fenceClose from rfl]; simp]
  unfold stripFenceClose
  rw [if_pos (List.isSuffixOf_iff_suffix.mpr (List.suffix_append _ _))]
  rw [List.take_left' (by have h3 : List.length fenceClose = 3 := rfl; simp; omega)]

theorem jsTrim_dropWhile_newline {B : JSString}
    (h1 : (B.dropWhile wsChar).head? = some '[') :
    jsTrim (B.dropWhile wsChar ++ ['\n']) = jsTrim B := by
  obtain ⟨bs, hbs⟩ : ∃ bs, B.dropWhile wsChar = '[' :: bs := by
    cases hd : B.dropWhile wsChar with
    | nil => rw [hd] at h1; simp at h1
    | cons x xs =>
      rw [hd] at h1
      simp only [List.head?_cons, Option.some.injEq] at h1
      exact ⟨xs, by rw [h1]⟩
  unfold jsTrim
  rw [hbs]
  rw [show ('[' :: bs) ++ ['\n'] = '[' :: (bs ++ ['\n']) from by simp]
  rw [List.dropWhile_cons_of_neg (by decide)]
  rw [show ('[' :: (bs ++ ['\n'])) = ('[' :: bs) ++ ['\n'] from by simp]
  rw [List.reverse_append]
  rw [show (['\n'] : JSString).reverse = ['\n'] from rfl]
  rw [show (['\n'] : JSString) ++ ('[' :: bs).reverse = '\n' :: ('[' :: bs).reverse
      from rfl]
  rw [List.dropWhile_cons_of_pos (by decide)]

/-- C6: for every JSON-array body `B` (first non-whitespace character
`[`, last non-whitespace character `]`), the cleaning-then-parse
pipeline gives the same result on `B` wrapped in a leading
three-backtick `json` fence and a trailing three-backtick fence as on
`B` itself, for any parser that is insensitive to surrounding
whitespace (as `JSON.parse` is). -/
theorem cleanedText_fence_transparent {α : Type} (B : JSString)
    (parse : JSString → α)
    (hparse : ∀ s, parse s = parse (jsTrim s))
    (h1 : (B.dropWhile wsChar).head? = some '[')
    (h2 : (B.reverse.dropWhile wsChar).head? = some ']') :
    parse (cleanedText ("```json\n".data ++ B ++ "\n```".data))
      = parse (cleanedText B) := by
  rw [cleanedText_of_wrapped h1]
  rw [show cleanedText B = B from by
    unfold cleanedText; rw [stripFenceOpen_no_match h1, stripFenceClose_no_match h2]]
  rw [hparse (B.dropWhile wsChar ++ ['\n']), jsTrim_dropWhile_newline h1,
    ← hparse B]

/-- Witness for C6 at the concrete body `[]` and a parser that is
trivially whitespace-insensitive. -/
theorem cleanedText_fence_transparent_witness :
    (∀ s : JSString, (fun _ : JSString => (0 : Nat)) s
        = (fun _ : JSString => (0 : Nat)) (jsTrim s)) ∧
    ((("[]".data : JSString).dropWhile wsChar).head? = some '[') ∧
    ((("[]".data : JSString).reverse.dropWhile wsChar).head? = some ']') ∧
    (fun _ : JSString => (0 : Nat))
        (cleanedText ("```json\n".data ++ "[]".data ++ "\n```".data))
      = (fun _ : JSString => (0 : Nat)) (cleanedText "[]".data) :=
  ⟨fun _ => rfl, by decide, by decide,
    cleanedText_fence_transparent "[]".data (fun _ => (0 : Nat))
      (fun _ => rfl) (by decide) (by decide)⟩

/-! ## C7, C8: the back transition -/

/-- C7 counterexample: the claim fails as stated.  Enter `"chicken"` and
submit the search; the home screen's ingredient list was `["chicken"]`
before navigating, but after `recipes --back--> home` the remounted home
screen shows the empty initial list, not the previously entered one. -/
theorem back_resets_ingredients_counterexample :
    homeIngredients (runEvents [Event.setInput "chicken".data,
      Event.submitAddIngredient]) = ["chicken".data] ∧
    homeIngredients (runEvents [Event.setInput "chicken".data,
      Event.submitAddIngredient, Event.findRecipesClick, Event.backClick])
      = [] ∧
    (["chicken".data] : List JSString) ≠ [] := by
  refine ⟨by decide, by decide, by decide⟩

/-- C7 (amended): the back transition's handler touches only `page` —
`searchParams` and `selectedRecipe` are left unchanged — but since
`HomePage` is only mounted while `page = 'home'`, navigating back mounts
a fresh `HomePage` with its initial local state: the home screen then
shows the empty initial ingredient list, not the list entered before
navigating away. -/
theorem back_remounts_fresh_home (st : AppState)
    (h : st.page = Page.recipes) :
    step st Event.backClick
      = { page := Page.home, searchParams := st.searchParams,
          selectedRecipe := st.selectedRecipe,
          homeState := some initialHomeState } ∧
    homeIngredients (step st Event.backClick) = [] := by
  have hb : step st Event.backClick
      = if st.page = Page.recipes then
          { page := Page.home, searchParams := st.searchParams,
            selectedRecipe := st.selectedRecipe,
            homeState := some initialHomeState }
        else st := rfl
  rw [hb, if_pos h]
  exact ⟨rfl, rfl⟩

/-- Witness for the amended C7 at a concrete reachable state. -/
theorem back_remounts_fresh_home_witness :
    (runEvents [Event.setInput "chicken".data, Event.submitAddIngredient,
        Event.findRecipesClick]).page = Page.recipes ∧
    (step (runEvents [Event.setInput "chicken".data, Event.submitAddIngredient,
        Event.findRecipesClick]) Event.backClick
      = { page := Page.home,
          searchParams := (runEvents [Event.setInput "chicken".data,
            Event.submitAddIngredient, Event.findRecipesClick]).searchParams,
          selectedRecipe := (runEvents [Event.setInput "chicken".data,
            Event.submitAddIngredient, Event.findRecipesClick]).selectedRecipe,
          homeState := some initialHomeState } ∧
      homeIngredients (step (runEvents [Event.setInput "chicken".data,
        Event.submitAddIngredient, Event.findRecipesClick]) Event.backClick)
        = []) :=
  ⟨by decide, back_remounts_fresh_home _ (by decide)⟩

/-- C8 counterexample: the claim fails as stated.  Open a recipe's
detail overlay on the recipes screen and take the back transition: the
resulting state is `home` with the overlay still shown — `selectedRecipe`
is not cleared by `handleBackToHome` and the modal render condition does
not consult `page`, so a home-with-overlay state is reachable. -/
theorem overlay_survives_back_counterexample :
    (runEvents [Event.setInput "chicken".data, Event.submitAddIngredient,
      Event.findRecipesClick, Event.selectRecipe sampleRecipe,
      Event.backClick]).page = Page.home ∧
    (runEvents [Event.setInput "chicken".data, Event.submitAddIngredient,
      Event.findRecipesClick, Event.selectRecipe sampleRecipe,
      Event.backClick]).selectedRecipe = some sampleRecipe ∧
    modalShown (runEvents [Event.setInput "chicken".data,
      Event.submitAddIngredient, Event.findRecipesClick,
      Event.selectRecipe sampleRecipe, Event.backClick]) = true := by
  refine ⟨by decide, by decide, by decide⟩

/-- C8 (amended): the overlay render condition depends only on
`selectedRecipe`, never on the router state, and the back transition
does not clear `selectedRecipe`: going back to `home` with an overlay
open leaves the overlay shown rather than closing it. -/
theorem overlay_independent_of_page (st : AppState)
    (h : st.page = Page.recipes) :
    modalShown st = st.selectedRecipe.isSome ∧
    (step st Event.backClick).selectedRecipe = st.selectedRecipe ∧
    (step st Event.backClick).page = Page.home ∧
    modalShown (step st Event.backClick) = modalShown st := by
  have hb : step st Event.backClick
      = if st.page = Page.recipes then
          { page := Page.home, searchParams := st.searchParams,
            selectedRecipe := st.selectedRecipe,
            homeState := some initialHomeState }
        else st := rfl
  rw [hb, if_pos h]
  exact ⟨rfl, rfl, rfl, rfl⟩

/-- Witness for the amended C8 at a concrete reachable state with an
open overlay. -/
theorem overlay_independent_of_page_witness :
    (runEvents [Event.setInput "chicken".data, Event.submitAddIngredient,
        Event.findRecipesClick, Event.selectRecipe sampleRecipe]).page
      = Page.recipes ∧
    (modalShown (runEvents [Event.setInput "chicken".data,
        Event.submitAddIngredient, Event.findRecipesClick,
        Event.selectRecipe sampleRecipe])
      = (runEvents [Event.setInput "chicken".data, Event.submitAddIngredient,
          Event.findRecipesClick,
          Event.selectRecipe sampleRecipe]).selectedRecipe.isSome ∧
      (step (runEvents [Event.setInput "chicken".data,
          Event.submitAddIngredient, Event.findRecipesClick,
          Event.selectRecipe sampleRecipe]) Event.backClick).selectedRecipe
        = (runEvents [Event.setInput "chicken".data, Event.submitAddIngredient,
            Event.findRecipesClick,
            Event.selectRecipe sampleRecipe]).selectedRecipe ∧
      (step (runEvents [Event.setInput "chicken".data,
          Event.submitAddIngredient, Event.findRecipesClick,
          Event.selectRecipe sampleRecipe]) Event.backClick).page = Page.home ∧
      modalShown (step (runEvents [Event.setInput "chicken".data,
          Event.submitAddIngredient, Event.findRecipesClick,
          Event.selectRecipe sampleRecipe]) Event.backClick)
        = modalShown (runEvents [Event.setInput "chicken".data,
            Event.submitAddIngredient, Event.findRecipesClick,
            Event.selectRecipe sampleRecipe])) :=
  ⟨by decide, overlay_independent_of_page _ (by decide)⟩
